import Mathlib

/-!
The package go-config: a shallow embedding of `config.go`.

The Go package keeps three package-level string settings, fills them from the
command line (`InitOnce`) and populates a caller-supplied configuration object
from a YAML file, dotenv files and the process environment, then validates it
(`Fill`).

The package's own control flow (`InitOnce`, `Fill`, `fillFromFile`,
`fillFromEnv`) is embedded as pure functions over an explicit process state
`World`.  The libraries the package calls (`os.Open`, the YAML decoder,
`godotenv.Load`, `envconfig.Process`, the struct validator) are collaborators
whose behaviour is taken as a parameter (`Libs`); the theorems about `Fill`
hold for every choice of these collaborators.  Where a statement depends on
what a library does inside one call, the call is spelled out one level further:
`godotenv.Load` as its loop over the files, with the reading of one file as the
parameter, and `envconfig.Process` as its loop over the fields, with the field
data of the configuration type as the parameter.  A concrete choice for the
`AppConfig` type of `main/example.go` is given further down and is used to
evaluate the theorems on concrete inputs.
-/

namespace GoConfig

/-! ## Process state -/

/-- The process environment table: variable names with their values. -/
abbrev Environ := List (String × String)

/-- The three package-level variables of `config.go` (lines 15 to 17). -/
structure Settings where
  yamlConfigFilePath : String
  envConfigFilePath : String
  envPrefix : String
  deriving DecidableEq, Repr

/-- An `error` value returned by `Fill`, tagged with the call it comes from:
`os.Open`, the YAML decoder, `envconfig.Process` or `validate.Struct`. -/
inductive Error where
  | io (msg : String)
  | decode (msg : String)
  | process (msg : String)
  | validation (msg : String)
  deriving DecidableEq, Repr

/-- The calls `Fill` makes into its collaborators, in the order made. -/
inductive Event where
  | osOpen (path : String)
  | yamlDecode (path : String)
  | fileClose (path : String)
  | godotenvLoad (filenames : List String)
  | envconfigProcess (pfx : String)
  | validateStruct
  deriving DecidableEq, Repr

/-- One flag registered in a flag set.  Only string-valued flags are modelled,
the only kind `InitOnce` registers; `value` is the string variable the pointer
returned by `flag.String` points to. -/
structure Flag where
  name : String
  usage : String
  value : String
  defValue : String
  deriving DecidableEq, Repr

/-- The state of a flag set of Go's standard `flag` package: `formal` holds the
registered flags (a map keyed by name), `actual` the names seen while parsing,
`args` the arguments left after the flags. -/
structure FlagSet where
  name : String
  formal : List Flag
  actual : List String
  parsed : Bool
  args : List String
  deriving DecidableEq, Repr

/-- The state of the running process that the package reads or writes: the
three settings, the process-wide flag set `flag.CommandLine`, `os.Args`, the
environment, the lines written to standard output, and the list of calls made
into the collaborators so far (kept to state which calls a run makes). -/
structure World where
  settings : Settings
  commandLine : FlagSet
  osArgs : List String
  environ : Environ
  stdout : List String
  trace : List Event
  deriving DecidableEq, Repr

/-- The collaborators of `Fill`.  `File` is what an opened YAML file holds and
`Cfg` the type of the configuration object.  Decoding and processing return
the object as they leave it together with their error, so that writes made
before a failure are kept. -/
structure Libs (File Cfg : Type) where
  osOpen : String → Except String File
  yamlDecode : File → Cfg → Cfg × Option String
  godotenvLoad : List String → Environ → Environ × Option String
  envconfigProcess : String → Environ → Cfg → Cfg × Option String
  validateStruct : Cfg → Option String

/-- What a call of `Fill` or of one of its stages leaves behind: the process
state, the configuration object and the returned `error` (`none` is `nil`). -/
structure Result (Cfg : Type) where
  world : World
  config : Cfg
  err : Option Error

/-! ## `strings.Split` and `strings.Join` with a one-character separator -/

/-- The pieces of `s` between occurrences of `sep`, as `strings.Split` returns
them: one more piece than there are separators, empty pieces kept. -/
def splitChars (sep : Char) : List Char → List (List Char)
  | [] => [[]]
  | c :: cs =>
    if c = sep then [] :: splitChars sep cs
    else
      match splitChars sep cs with
      | [] => [[c]]
      | p :: ps => (c :: p) :: ps

/-- The pieces written one after the other with `sep` in between. -/
def joinChars (sep : Char) : List (List Char) → List Char
  | [] => []
  | [p] => p
  | p :: q :: ps => p ++ sep :: joinChars sep (q :: ps)

/-- Go's `strings.Split(s, sep)` for a separator of one character, as in the
call `strings.Split(envConfigFilePath, ",")`. -/
def stringsSplit (s : String) (sep : Char) : List String :=
  (splitChars sep s.data).map String.mk

/-- Go's `strings.Join(elems, sep)` for a separator of one character. -/
def stringsJoin (elems : List String) (sep : Char) : String :=
  String.mk (joinChars sep (elems.map String.data))

/-! ## The file stage, the environment stage and `Fill` -/

section Fill

variable {File Cfg : Type}

/-- The function `fillFromFile` of `config.go` (lines 44 to 57). -/
def fillFromFile (L : Libs File Cfg) (w : World) (cfg : Cfg) : Result Cfg :=
  if w.settings.yamlConfigFilePath = "" then
    { world := { w with stdout := w.stdout ++ ["fdvd\n"] }, config := cfg, err := none }
  else
    match L.osOpen w.settings.yamlConfigFilePath with
    | .error e =>
      { world := { w with trace := w.trace ++ [Event.osOpen w.settings.yamlConfigFilePath] },
        config := cfg, err := some (Error.io e) }
    | .ok file =>
      let r := L.yamlDecode file cfg
      { world := { w with trace := w.trace ++
                    [Event.osOpen w.settings.yamlConfigFilePath,
                     Event.yamlDecode w.settings.yamlConfigFilePath,
                     Event.fileClose w.settings.yamlConfigFilePath] },
        config := r.1, err := r.2.map Error.decode }

/-- The file names `fillFromEnv` hands to `godotenv.Load` (lines 60 to 64):
the pieces of the env path when it is not empty, no name at all otherwise. -/
def envFilenames (s : Settings) : List String :=
  if s.envConfigFilePath ≠ "" then stringsSplit s.envConfigFilePath ',' else []

/-- The function `fillFromEnv` of `config.go` (lines 59 to 67).  The error of
`godotenv.Load` is dropped; the environment it leaves is kept. -/
def fillFromEnv (L : Libs File Cfg) (w : World) (config : Cfg) : Result Cfg :=
  let loaded := L.godotenvLoad (envFilenames w.settings) w.environ
  let r := L.envconfigProcess w.settings.envPrefix loaded.1 config
  { world := { w with environ := loaded.1,
                      trace := w.trace ++ [Event.godotenvLoad (envFilenames w.settings),
                                           Event.envconfigProcess w.settings.envPrefix] },
    config := r.1, err := r.2.map Error.process }

/-- The function `Fill` of `config.go` (lines 31 to 42).  The validator built
on entry by `validator.New()` is the collaborator `validateStruct`; building it
touches nothing of the process state. -/
def Fill (L : Libs File Cfg) (w : World) (config : Cfg) : Result Cfg :=
  let r1 := fillFromFile L w config
  match r1.err with
  | some e => { world := r1.world, config := r1.config, err := some e }
  | none =>
    let r2 := fillFromEnv L r1.world r1.config
    match r2.err with
    | some e => { world := r2.world, config := r2.config, err := some e }
    | none =>
      { world := { r2.world with trace := r2.world.trace ++ [Event.validateStruct] },
        config := r2.config,
        err := (L.validateStruct r2.config).map Error.validation }

end Fill

/-! ## The `flag` package calls made by `InitOnce`

`InitOnce` works on the process-wide flag set `flag.CommandLine`, whose error
handling is `ExitOnError`.  Registration and parsing follow the standard
library: registering a name twice panics, a parse error exits the process. -/

/-- Why a registration in a flag set panics (`FlagSet.Var`). -/
inductive Panic where
  | beginsWithDash (name : String)
  | containsEquals (name : String)
  | flagRedefined (setName : String) (name : String)
  deriving DecidableEq, Repr

/-- How a call that may panic or exit the process ends.  A panic keeps the
process state reached when it was raised. -/
inductive Outcome where
  | ok (w : World)
  | panicked (p : Panic) (w : World)
  | exited (code : Nat)
  deriving DecidableEq, Repr

/-- The entry of the `formal` map under `name`. -/
def lookupFlag (name : String) : List Flag → Option Flag
  | [] => none
  | f :: fs => if f.name = name then some f else lookupFlag name fs

/-- The effect of `flag.Value.Set(value)` on the flag called `name`: its
string variable is overwritten. -/
def setFlag (name value : String) : List Flag → List Flag
  | [] => []
  | f :: fs =>
    if f.name = name then { f with value := value } :: fs
    else f :: setFlag name value fs

/-- The call `flag.String(name, value, usage)` on a flag set: `FlagSet.Var`
refuses a name that begins with a dash, holds an equals sign or is already
registered; otherwise a new string variable holding `value` is registered. -/
def flagString (f : FlagSet) (name value usageText : String) : Except Panic FlagSet :=
  if name.data.head? = some '-' then .error (Panic.beginsWithDash name)
  else if '=' ∈ name.data then .error (Panic.containsEquals name)
  else if (lookupFlag name f.formal).isSome then .error (Panic.flagRedefined f.name name)
  else
    .ok { f with formal := f.formal ++
            [{ name := name, usage := usageText, value := value, defValue := value }] }

/-- The loop inside `FlagSet.parseOne`: the name of a flag argument cut at the
first equals sign after its first character, with the value behind it. -/
def cutAtEquals : List Char → List Char × Option (List Char)
  | [] => ([], none)
  | c :: cs =>
    if c = '=' then ([], some cs)
    else
      let r := cutAtEquals cs
      (c :: r.1, r.2)

/-- The text of a flag argument after its one or two leading dashes, given the
text `t` after the first dash. -/
def stripSecondDash : List Char → List Char
  | '-' :: t => t
  | t => t

/-- What `FlagSet.parseOne` makes of the argument at the head of the list. -/
inductive ArgKind where
  | nonFlag
  | terminator
  | badFlag
  | flag (name : String) (value : Option String)
  deriving DecidableEq, Repr

/-- The first half of `FlagSet.parseOne`: an argument shorter than two
characters or not starting with a dash is no flag, `--` ends the flags, a name
that is empty or starts with a dash or an equals sign is refused, anything else
is a flag name with the value after an equals sign, if there is one. -/
def classifyArg (s : String) : ArgKind :=
  match s.data with
  | '-' :: c :: cs =>
    if c = '-' ∧ cs = [] then ArgKind.terminator
    else
      match stripSecondDash (c :: cs) with
      | [] => ArgKind.badFlag
      | n0 :: ns =>
        if n0 = '-' ∨ n0 = '=' then ArgKind.badFlag
        else ArgKind.flag (String.mk (n0 :: (cutAtEquals ns).1)) ((cutAtEquals ns).2.map String.mk)
  | _ => ArgKind.nonFlag

/-- The loop of `FlagSet.Parse` over `FlagSet.parseOne`, for a flag set with
`ExitOnError`.  The registered flags and the seen names are threaded through
the arguments; `pending` is the flag that was given without `=value` and takes
the next argument as its value.  The result is the state of the flag set with
the arguments left over, or the exit status: 0 after `-h` or `-help` on a set
without such a flag, 2 after any other error. -/
def parseLoop (formal : List Flag) (actual : List String) (pending : Option String) :
    List String → Except Nat (List Flag × List String × List String)
  | [] =>
    match pending with
    | some _ => .error 2
    | none => .ok (formal, actual, [])
  | s :: rest =>
    match pending with
    | some flagName => parseLoop (setFlag flagName s formal) (actual ++ [flagName]) none rest
    | none =>
      match classifyArg s with
      | ArgKind.nonFlag => .ok (formal, actual, s :: rest)
      | ArgKind.terminator => .ok (formal, actual, rest)
      | ArgKind.badFlag => .error 2
      | ArgKind.flag flagName value =>
        match lookupFlag flagName formal with
        | none => if flagName = "help" ∨ flagName = "h" then .error 0 else .error 2
        | some _ =>
          match value with
          | some v => parseLoop (setFlag flagName v formal) (actual ++ [flagName]) none rest
          | none => parseLoop formal actual (some flagName) rest

/-- The call `flag.Parse()`: parse `os.Args[1:]` with the process flag set. -/
def flagParse (f : FlagSet) (arguments : List String) : Except Nat FlagSet :=
  match parseLoop f.formal f.actual none arguments with
  | .error code => .error code
  | .ok (formal, actual, args) =>
    .ok { f with formal := formal, actual := actual, parsed := true, args := args }

/-- Reading through the pointer returned by `flag.String`: the current value
of the string variable registered under `name`. -/
def flagValue (f : FlagSet) (name : String) : String :=
  match lookupFlag name f.formal with
  | some fl => fl.value
  | none => ""

/-- The function `InitOnce` of `config.go` (lines 19 to 28). -/
def InitOnce (w : World) : Outcome :=
  match flagString w.commandLine "yaml-config" "" "yaml config file path" with
  | .error p => .panicked p w
  | .ok f1 =>
    match flagString f1 "env-config" "" ".env config file path" with
    | .error p => .panicked p { w with commandLine := f1 }
    | .ok f2 =>
      match flagString f2 "env-prefix" "" "environment settings prefix" with
      | .error p => .panicked p { w with commandLine := f2 }
      | .ok f3 =>
        match flagParse f3 (w.osArgs.drop 1) with
        | .error code => .exited code
        | .ok f4 =>
          .ok { w with commandLine := f4,
                       settings := { yamlConfigFilePath := flagValue f4 "yaml-config",
                                     envConfigFilePath := flagValue f4 "env-config",
                                     envPrefix := flagValue f4 "env-prefix" } }

/-- A process at start: nothing registered in the flag set, which is named
after the program, and empty settings. -/
def freshWorld (osArgs : List String) (environ : Environ) : World :=
  { settings := { yamlConfigFilePath := "", envConfigFilePath := "", envPrefix := "" },
    commandLine := { name := osArgs.headD "", formal := [], actual := [],
                     parsed := false, args := [] },
    osArgs := osArgs, environ := environ, stdout := [], trace := [] }

/-! ## The collaborators at the `AppConfig` type of `main/example.go`

A small, executable choice of the collaborators for the configuration type of
the example program.  It covers what the example exercises: a YAML document
given as a tree of mappings and scalars and decoded by lower-cased field name,
dotenv files given as lists of assignments that never overwrite a variable
already set, environment keys built as upper-cased `PREFIX_FIELD` paths, decimal
integers and the boolean spellings of `strconv.ParseBool`. -/

/-- The anonymous struct type of the field `Server` of `AppConfig`. -/
structure ServerConfig where
  Host : String
  Port : Int
  deriving DecidableEq, Repr

/-- The type `AppConfig` of `main/example.go` (lines 9 to 16). -/
structure AppConfig where
  Server : ServerConfig
  Debug : Bool
  deriving DecidableEq, Repr

/-- The zero value `&AppConfig{}` that `main` passes to `Fill`. -/
def AppConfig.zero : AppConfig := { Server := { Host := "", Port := 0 }, Debug := false }

/-- A YAML document: a scalar or a mapping from keys to documents. -/
inductive Yaml where
  | scalar (text : String)
  | mapping (entries : List (String × Yaml))

/-- The value of a decimal digit. -/
def digitValue (c : Char) : Option Nat :=
  if c = '0' then some 0 else if c = '1' then some 1 else if c = '2' then some 2
  else if c = '3' then some 3 else if c = '4' then some 4 else if c = '5' then some 5
  else if c = '6' then some 6 else if c = '7' then some 7 else if c = '8' then some 8
  else if c = '9' then some 9 else none

/-- The number written by the digits `cs` after the digits read so far gave `acc`. -/
def parseDigits (acc : Nat) : List Char → Option Nat
  | [] => some acc
  | c :: cs =>
    match digitValue c with
    | none => none
    | some d => parseDigits (10 * acc + d) cs

/-- A decimal integer with an optional sign. -/
def parseInt (s : String) : Option Int :=
  match s.data with
  | [] => none
  | '-' :: c :: cs => (parseDigits 0 (c :: cs)).map fun n => -(n : Int)
  | '+' :: c :: cs => (parseDigits 0 (c :: cs)).map fun n => (n : Int)
  | cs => (parseDigits 0 cs).map fun n => (n : Int)

/-- The spellings `strconv.ParseBool` accepts. -/
def parseBool (s : String) : Option Bool :=
  if s = "1" ∨ s = "t" ∨ s = "T" ∨ s = "TRUE" ∨ s = "true" ∨ s = "True" then some true
  else if s = "0" ∨ s = "f" ∨ s = "F" ∨ s = "FALSE" ∨ s = "false" ∨ s = "False" then some false
  else none

/-- The first entry of a mapping under `key`. -/
def yamlLookup (key : String) : List (String × Yaml) → Option Yaml
  | [] => none
  | (k, v) :: es => if k = key then some v else yamlLookup key es

/-- Decode the keys `host` and `port` of a mapping into the `Server` struct.
A value of the wrong shape is reported and the field keeps its value; the other
fields are still decoded. -/
def decodeServer (y : Yaml) (s : ServerConfig) : ServerConfig × List String :=
  match y with
  | Yaml.scalar _ => (s, ["cannot unmarshal scalar into struct"])
  | Yaml.mapping es =>
    let r1 : ServerConfig × List String :=
      match yamlLookup "host" es with
      | none => (s, [])
      | some (Yaml.scalar t) => ({ s with Host := t }, [])
      | some (Yaml.mapping _) => (s, ["cannot unmarshal mapping into string"])
    match yamlLookup "port" es with
    | none => r1
    | some (Yaml.scalar t) =>
      match parseInt t with
      | some n => ({ r1.1 with Port := n }, r1.2)
      | none => (r1.1, r1.2 ++ ["cannot unmarshal scalar into int"])
    | some (Yaml.mapping _) => (r1.1, r1.2 ++ ["cannot unmarshal mapping into int"])

/-- Decode a YAML document into an `AppConfig`: keys `server` and `debug`. -/
def decodeAppConfig (y : Yaml) (c : AppConfig) : AppConfig × Option String :=
  match y with
  | Yaml.scalar _ => (c, some "cannot unmarshal scalar into struct")
  | Yaml.mapping es =>
    let r1 : AppConfig × List String :=
      match yamlLookup "server" es with
      | none => (c, [])
      | some ys => ({ c with Server := (decodeServer ys c.Server).1 }, (decodeServer ys c.Server).2)
    let r2 : AppConfig × List String :=
      match yamlLookup "debug" es with
      | none => r1
      | some (Yaml.scalar t) =>
        match parseBool t with
        | some b => ({ r1.1 with Debug := b }, r1.2)
        | none => (r1.1, r1.2 ++ ["cannot unmarshal scalar into bool"])
      | some (Yaml.mapping _) => (r1.1, r1.2 ++ ["cannot unmarshal mapping into bool"])
    (r2.1, if r2.2 = [] then none else some (String.intercalate "; " r2.2))

/-- Upper-case the ASCII letters of a string. -/
def toUpper (s : String) : String := String.mk (s.data.map Char.toUpper)

/-- The environment key of a field: the field name, behind the key of the
enclosing struct or the prefix and an underscore when that is not empty,
upper-cased. -/
def envKey (pfx name : String) : String :=
  toUpper (if pfx = "" then name else pfx ++ "_" ++ name)

/-- The value of the first entry of the environment under `key`. -/
def lookupEnv (key : String) : Environ → Option String
  | [] => none
  | (k, v) :: es => if k = key then some v else lookupEnv key es

/-- The overlay of the environment onto an `AppConfig`: the fields `Server.Host`,
`Server.Port` and `Debug` are visited in this order, a variable that is set is
converted and assigned, and the first value that cannot be converted stops the
overlay with an error. -/
def processAppConfig (pfx : String) (env : Environ) (c : AppConfig) : AppConfig × Option String :=
  let serverKey := envKey pfx "Server"
  let c1 : AppConfig :=
    match lookupEnv (envKey serverKey "Host") env with
    | some v => { c with Server := { c.Server with Host := v } }
    | none => c
  let r2 : AppConfig × Option String :=
    match lookupEnv (envKey serverKey "Port") env with
    | none => (c1, none)
    | some v =>
      match parseInt v with
      | some n => ({ c1 with Server := { c1.Server with Port := n } }, none)
      | none => (c1, some ("envconfig.Process: assigning " ++ envKey serverKey "Port" ++ " to Port"))
  match r2.2 with
  | some e => (r2.1, some e)
  | none =>
    match lookupEnv (envKey pfx "Debug") env with
    | none => (r2.1, none)
    | some v =>
      match parseBool v with
      | some b => ({ r2.1 with Debug := b }, none)
      | none => (r2.1, some ("envconfig.Process: assigning " ++ envKey pfx "Debug" ++ " to Debug"))

/-- The file names `godotenv.Load` reads: the ones given, or `.env` when none
is given. -/
def filenamesOrDefault (filenames : List String) : List String :=
  if filenames = [] then [".env"] else filenames

/-- Add the assignments of one dotenv file to the environment; a variable that
is already set keeps its value. -/
def setenvAll : Environ → Environ → Environ
  | [], env => env
  | (k, v) :: kvs, env =>
    if (lookupEnv k env).isSome then setenvAll kvs env else setenvAll kvs (env ++ [(k, v)])

/-- Load dotenv files in order, stopping at the first one that is missing. -/
def loadFiles (files : List (String × Environ)) : List String → Environ → Environ × Option String
  | [], env => (env, none)
  | f :: fs, env =>
    match files.lookup f with
    | none => (env, some ("open " ++ f ++ ": no such file or directory"))
    | some kvs => loadFiles files fs (setenvAll kvs env)

/-- The collaborators for `AppConfig` over a file system holding the YAML
documents `yamlFiles` and the dotenv files `envFiles`, with `validate` as the
verdict of the struct validator. -/
def exampleLibs (yamlFiles : List (String × Yaml)) (envFiles : List (String × Environ))
    (validate : AppConfig → Option String) : Libs Yaml AppConfig :=
  { osOpen := fun path =>
      match yamlFiles.lookup path with
      | some y => .ok y
      | none => .error ("open " ++ path ++ ": no such file or directory")
    yamlDecode := decodeAppConfig
    godotenvLoad := fun filenames env => loadFiles envFiles (filenamesOrDefault filenames) env
    envconfigProcess := processAppConfig
    validateStruct := validate }

/-- The verdict on `AppConfig` as declared in `main/example.go`: the type
carries no `validate` tag, so every value passes. -/
def noRules : AppConfig → Option String := fun _ => none

/-- The verdict of a rule that wants the port between 1 and 65535. -/
def portRule (c : AppConfig) : Option String :=
  if 1 ≤ c.Server.Port ∧ c.Server.Port ≤ 65535 then none
  else some "Key: 'AppConfig.Server.Port' Error:Field validation for 'Port' failed"

/-- The YAML document of the example:
`server: {host: localhost, port: 8080}`, `debug: false`. -/
def exampleYaml : Yaml :=
  Yaml.mapping [("server", Yaml.mapping [("host", Yaml.scalar "localhost"),
                                        ("port", Yaml.scalar "8080")]),
                ("debug", Yaml.scalar "false")]

/-- A process whose settings are already resolved, with the given environment. -/
def worldWith (s : Settings) (environ : Environ) : World :=
  { freshWorld ["app"] environ with settings := s }

/-! ## The loops of `godotenv.Load` and `envconfig.Process`

The two library calls of the environment stage, one level further in: what
they do file by file and field by field.  Reading one dotenv file and the field
data of a configuration type are left as parameters. -/

/-- What a run of `godotenv.Load` leaves: the environment, the returned error
and the files it tried to read, in order. -/
structure LoadRun where
  environ : Environ
  err : Option String
  attempted : List String
  deriving DecidableEq, Repr

/-- The loop of `godotenv.Load` over its file names: each file is read and its
assignments put into the environment by `loadFile`; the first file that fails
ends the loop with its error, and the files after it are not read. -/
def loadEach (loadFile : String → Environ → Except String Environ) :
    List String → Environ → LoadRun
  | [], env => { environ := env, err := none, attempted := [] }
  | f :: fs, env =>
    match loadFile f env with
    | .error e => { environ := env, err := some e, attempted := [f] }
    | .ok env1 =>
      { environ := (loadEach loadFile fs env1).environ,
        err := (loadEach loadFile fs env1).err,
        attempted := f :: (loadEach loadFile fs env1).attempted }

/-- The call `godotenv.Load(filenames...)`: the loop over the names given, or
over `.env` when none is given. -/
def godotenvLoad (loadFile : String → Environ → Except String Environ)
    (filenames : List String) (env : Environ) : Environ × Option String :=
  ((loadEach loadFile (filenamesOrDefault filenames) env).environ,
   (loadEach loadFile (filenamesOrDefault filenames) env).err)

/-- Reading one dotenv file out of the files `files`: a name that is not there
fails, the assignments of one that is there are added to the environment. -/
def dotenvFile (files : List (String × Environ)) (name : String) (env : Environ) :
    Except String Environ :=
  match files.lookup name with
  | none => .error ("open " ++ name ++ ": no such file or directory")
  | some kvs => .ok (setenvAll kvs env)

/-- What `envconfig` gathers about one field of the configuration type: the
environment key, the alternative key of an `envconfig` tag (empty without
one), the `default` tag (empty without one), whether the `required` tag is
true, and the conversion and assignment of a value to the field. -/
structure VarInfo (Cfg : Type) where
  key : String
  alt : String
  defaultTag : String
  required : Bool
  assign : String → Cfg → Except String Cfg

/-- The loop of `envconfig.Process` over the gathered fields.  The value of a
field is looked up under its key, then under its alternative key; a field
without a value takes its `default` tag when it has one, fails the call when
it is required, and is skipped otherwise; a value that cannot be converted
fails the call.  Fields assigned before a failure stay assigned. -/
def processInfos {Cfg : Type} : List (VarInfo Cfg) → Environ → Cfg → Cfg × Option String
  | [], _, c => (c, none)
  | info :: rest, env, c =>
    let found : Option String :=
      match lookupEnv info.key env with
      | some v => some v
      | none => if info.alt ≠ "" then lookupEnv info.alt env else none
    match found with
    | some v =>
      match info.assign v c with
      | .error e => (c, some e)
      | .ok c1 => processInfos rest env c1
    | none =>
      if info.defaultTag ≠ "" then
        match info.assign info.defaultTag c with
        | .error e => (c, some e)
        | .ok c1 => processInfos rest env c1
      else if info.required then
        (c, some ("required key " ++ (if info.alt ≠ "" then info.alt else info.key)
                    ++ " missing value"))
      else processInfos rest env c

/-- The call `envconfig.Process(prefix, spec)` for a configuration type whose
fields, gathered under a prefix, are `gatherInfo prefix`. -/
def envconfigProcess {Cfg : Type} (gatherInfo : String → List (VarInfo Cfg))
    (pfx : String) (env : Environ) (c : Cfg) : Cfg × Option String :=
  processInfos (gatherInfo pfx) env c

/-- The fields of `AppConfig` as gathered under a prefix: `Server.Host`,
`Server.Port` and `Debug`, none of them tagged. -/
def appConfigInfos (pfx : String) : List (VarInfo AppConfig) :=
  [{ key := envKey (envKey pfx "Server") "Host", alt := "", defaultTag := "", required := false,
     assign := fun v c => .ok { c with Server := { c.Server with Host := v } } },
   { key := envKey (envKey pfx "Server") "Port", alt := "", defaultTag := "", required := false,
     assign := fun v c =>
       match parseInt v with
       | some n => .ok { c with Server := { c.Server with Port := n } }
       | none => .error ("envconfig.Process: assigning "
                          ++ envKey (envKey pfx "Server") "Port" ++ " to Port") },
   { key := envKey pfx "Debug", alt := "", defaultTag := "", required := false,
     assign := fun v c =>
       match parseBool v with
       | some b => .ok { c with Debug := b }
       | none => .error ("envconfig.Process: assigning " ++ envKey pfx "Debug" ++ " to Debug") }]

/-- A configuration type with the one string field `Host`. -/
structure HostConfig where
  Host : String
  deriving DecidableEq, Repr

/-- Decode the key `host` of a YAML mapping into a `HostConfig`. -/
def decodeHostConfig (y : Yaml) (c : HostConfig) : HostConfig × Option String :=
  match y with
  | Yaml.scalar _ => (c, some "cannot unmarshal scalar into struct")
  | Yaml.mapping es =>
    match yamlLookup "host" es with
    | none => (c, none)
    | some (Yaml.scalar t) => ({ c with Host := t }, none)
    | some (Yaml.mapping _) => (c, some "cannot unmarshal mapping into string")

/-- The field of `HostConfig` as gathered under a prefix, when it is declared
with the given `default` tag and `required` tag. -/
def hostConfigInfos (defaultTag : String) (required : Bool) (pfx : String) :
    List (VarInfo HostConfig) :=
  [{ key := envKey pfx "Host", alt := "", defaultTag := defaultTag, required := required,
     assign := fun v c => .ok { c with Host := v } }]

/-- The collaborators for `HostConfig` with the given tags on `Host`, over a
file system holding the YAML documents `yamlFiles` and the dotenv files
`envFiles`; no validation rule is declared. -/
def hostLibs (yamlFiles : List (String × Yaml)) (envFiles : List (String × Environ))
    (defaultTag : String) (required : Bool) : Libs Yaml HostConfig :=
  { osOpen := fun path =>
      match yamlFiles.lookup path with
      | some y => .ok y
      | none => .error ("open " ++ path ++ ": no such file or directory")
    yamlDecode := decodeHostConfig
    godotenvLoad := godotenvLoad (dotenvFile envFiles)
    envconfigProcess := envconfigProcess (hostConfigInfos defaultTag required)
    validateStruct := fun _ => none }

/-- The collaborators for `AppConfig` with the two library loops spelled out:
dotenv files are read one by one from `envFiles` and the overlay runs over the
gathered fields of `AppConfig`. -/
def appLibs (yamlFiles : List (String × Yaml)) (envFiles : List (String × Environ))
    (validate : AppConfig → Option String) : Libs Yaml AppConfig :=
  { exampleLibs yamlFiles envFiles validate with
    godotenvLoad := godotenvLoad (dotenvFile envFiles)
    envconfigProcess := envconfigProcess appConfigInfos }

/-- The YAML document `host: y`. -/
def hostYaml : Yaml := Yaml.mapping [("host", Yaml.scalar "y")]

/-! ## Lemmas on splitting and joining -/

theorem splitChars_ne_nil (sep : Char) (l : List Char) : splitChars sep l ≠ [] := by
  cases l with
  | nil => simp [splitChars]
  | cons c cs =>
    unfold splitChars
    split
    · simp
    · split <;> simp

theorem joinChars_splitChars (sep : Char) (l : List Char) :
    joinChars sep (splitChars sep l) = l := by
  induction l with
  | nil => simp [splitChars, joinChars]
  | cons c cs ih =>
    unfold splitChars
    by_cases hc : c = sep
    · rw [if_pos hc]
      cases hs : splitChars sep cs with
      | nil => exact absurd hs (splitChars_ne_nil sep cs)
      | cons q ps =>
        rw [hs] at ih
        simp [joinChars, ih, hc]
    · rw [if_neg hc]
      cases hs : splitChars sep cs with
      | nil => exact absurd hs (splitChars_ne_nil sep cs)
      | cons q ps =>
        rw [hs] at ih
        cases ps with
        | nil => simpa [joinChars] using ih
        | cons q2 ps2 =>
          simp only [joinChars] at ih ⊢
          simp [ih]

theorem splitChars_of_not_mem (sep : Char) (l : List Char) (h : sep ∉ l) :
    splitChars sep l = [l] := by
  induction l with
  | nil => simp [splitChars]
  | cons c cs ih =>
    have hc : c ≠ sep := fun e => h (by simp [e])
    have hcs : sep ∉ cs := fun e => h (by simp [e])
    unfold splitChars
    rw [if_neg hc, ih hcs]

theorem stringsJoin_stringsSplit (s : String) (sep : Char) :
    stringsJoin (stringsSplit s sep) sep = s := by
  unfold stringsJoin stringsSplit
  have h : List.map String.data (List.map String.mk (splitChars sep s.data))
      = splitChars sep s.data := by
    rw [List.map_map]
    exact List.map_id _
  rw [h, joinChars_splitChars]

theorem stringsSplit_of_not_mem (s : String) (sep : Char) (h : sep ∉ s.data) :
    stringsSplit s sep = [s] := by
  unfold stringsSplit
  rw [splitChars_of_not_mem sep s.data h]
  rfl

/-! ## The overlay of the example -/

theorem processAppConfig_no_match (pfx : String) (env : Environ) (c : AppConfig)
    (h1 : lookupEnv (envKey (envKey pfx "Server") "Host") env = none)
    (h2 : lookupEnv (envKey (envKey pfx "Server") "Port") env = none)
    (h3 : lookupEnv (envKey pfx "Debug") env = none) :
    processAppConfig pfx env c = (c, none) := by
  simp [processAppConfig, h1, h2, h3]

theorem envconfigProcess_appConfigInfos (pfx : String) (env : Environ) (c : AppConfig) :
    envconfigProcess appConfigInfos pfx env c = processAppConfig pfx env c := by
  unfold envconfigProcess appConfigInfos processAppConfig
  simp only [processInfos]
  cases lookupEnv (envKey (envKey pfx "Server") "Host") env <;>
    cases lookupEnv (envKey (envKey pfx "Server") "Port") env <;>
    cases lookupEnv (envKey pfx "Debug") env <;>
    simp only [ne_eq, not_true_eq_false, if_false] <;>
    (repeat' split) <;> (try simp_all)
  all_goals
    subst_vars
    rfl

theorem loadFiles_eq_loadEach (files : List (String × Environ)) (names : List String) :
    ∀ env, loadFiles files names env
      = ((loadEach (dotenvFile files) names env).environ,
         (loadEach (dotenvFile files) names env).err) := by
  induction names with
  | nil =>
    intro env
    rfl
  | cons f fs ih =>
    intro env
    unfold loadFiles loadEach dotenvFile
    cases List.lookup f files with
    | none => rfl
    | some kvs => exact ih _

/-! ## The loops of the environment stage -/

theorem loadEach_attempted_prefix (loadFile : String → Environ → Except String Environ)
    (names : List String) :
    ∀ env, (loadEach loadFile names env).attempted <+: names := by
  induction names with
  | nil =>
    intro env
    exact List.prefix_refl _
  | cons f fs ih =>
    intro env
    unfold loadEach
    split
    · exact ⟨fs, rfl⟩
    · rename_i env1 _
      obtain ⟨t, ht⟩ := ih env1
      exact ⟨t, by simp only [List.cons_append, ht]⟩

theorem loadEach_attempted_of_ok (loadFile : String → Environ → Except String Environ)
    (names : List String) :
    ∀ env, (loadEach loadFile names env).err = none →
      (loadEach loadFile names env).attempted = names := by
  induction names with
  | nil =>
    intro env _
    rfl
  | cons f fs ih =>
    intro env h
    unfold loadEach at h ⊢
    split at h
    · cases h
    · rename_i env1 hf
      simp only [hf]
      rw [ih env1 h]

theorem loadEach_stops (loadFile : String → Environ → Except String Environ)
    (pre : List String) (f : String) (post : List String) (e : String) :
    ∀ env, (loadEach loadFile pre env).err = none →
      loadFile f (loadEach loadFile pre env).environ = .error e →
      loadEach loadFile (pre ++ f :: post) env
        = { environ := (loadEach loadFile pre env).environ, err := some e,
            attempted := pre ++ [f] } := by
  induction pre with
  | nil =>
    intro env _ hf
    have hf2 : loadFile f env = .error e := hf
    simp only [List.nil_append, loadEach, hf2]
  | cons g gs ih =>
    intro env hok hf
    cases hg : loadFile g env with
    | error e1 =>
      simp only [loadEach, hg] at hok
      cases hok
    | ok env1 =>
      simp only [loadEach, hg] at hok hf
      have h := ih env1 hok hf
      show loadEach loadFile (g :: (gs ++ f :: post)) env = _
      simp only [loadEach, hg, h, List.cons_append]

theorem processInfos_no_match {Cfg : Type} (infos : List (VarInfo Cfg)) (env : Environ) (c : Cfg)
    (hmatch : ∀ info ∈ infos, lookupEnv info.key env = none
        ∧ (info.alt ≠ "" → lookupEnv info.alt env = none))
    (htags : ∀ info ∈ infos, info.defaultTag = "" ∧ info.required = false) :
    processInfos infos env c = (c, none) := by
  induction infos with
  | nil => rfl
  | cons info rest ih =>
    have hm := hmatch info (List.mem_cons_self _ _)
    have ht := htags info (List.mem_cons_self _ _)
    have hrest := ih (fun i hi => hmatch i (List.mem_cons_of_mem _ hi))
      (fun i hi => htags i (List.mem_cons_of_mem _ hi))
    have hfound : (match lookupEnv info.key env with
        | some v => some v
        | none => if info.alt ≠ "" then lookupEnv info.alt env else none) = none := by
      rw [hm.1]
      by_cases ha : info.alt ≠ ""
      · simp only [if_pos ha]
        exact hm.2 ha
      · simp only [if_neg ha]
    unfold processInfos
    simp only [hfound, ht.1, ht.2, ne_eq, not_true_eq_false, if_false, Bool.false_eq_true]
    exact hrest

/-! ## The stages of `Fill` -/

section FillTheorems

variable {File Cfg : Type}

theorem fillFromFile_empty (L : Libs File Cfg) (w : World) (cfg : Cfg)
    (h : w.settings.yamlConfigFilePath = "") :
    fillFromFile L w cfg
      = { world := { w with stdout := w.stdout ++ ["fdvd\n"] }, config := cfg, err := none } := by
  unfold fillFromFile
  rw [if_pos h]

theorem fillFromFile_open_error (L : Libs File Cfg) (w : World) (cfg : Cfg) (e : String)
    (h : w.settings.yamlConfigFilePath ≠ "")
    (ho : L.osOpen w.settings.yamlConfigFilePath = .error e) :
    fillFromFile L w cfg
      = { world := { w with trace := w.trace ++ [Event.osOpen w.settings.yamlConfigFilePath] },
          config := cfg, err := some (Error.io e) } := by
  unfold fillFromFile
  rw [if_neg h, ho]

theorem fillFromFile_open_ok (L : Libs File Cfg) (w : World) (cfg : Cfg) (file : File)
    (h : w.settings.yamlConfigFilePath ≠ "")
    (ho : L.osOpen w.settings.yamlConfigFilePath = .ok file) :
    fillFromFile L w cfg
      = { world := { w with trace := w.trace ++
                      [Event.osOpen w.settings.yamlConfigFilePath,
                       Event.yamlDecode w.settings.yamlConfigFilePath,
                       Event.fileClose w.settings.yamlConfigFilePath] },
          config := (L.yamlDecode file cfg).1,
          err := (L.yamlDecode file cfg).2.map Error.decode } := by
  unfold fillFromFile
  rw [if_neg h, ho]

theorem Fill_of_file_error (L : Libs File Cfg) (w : World) (cfg : Cfg) (e : Error)
    (h : (fillFromFile L w cfg).err = some e) :
    Fill L w cfg = fillFromFile L w cfg := by
  unfold Fill
  simp only [h]
  rw [← h]

theorem Fill_of_env_error (L : Libs File Cfg) (w : World) (cfg : Cfg) (e : Error)
    (hf : (fillFromFile L w cfg).err = none)
    (h : (fillFromEnv L (fillFromFile L w cfg).world (fillFromFile L w cfg).config).err = some e) :
    Fill L w cfg = fillFromEnv L (fillFromFile L w cfg).world (fillFromFile L w cfg).config := by
  unfold Fill
  simp only [hf, h]
  rw [← h]

theorem Fill_of_stages_ok (L : Libs File Cfg) (w : World) (cfg : Cfg)
    (hf : (fillFromFile L w cfg).err = none)
    (h : (fillFromEnv L (fillFromFile L w cfg).world (fillFromFile L w cfg).config).err = none) :
    Fill L w cfg
      = { world :=
            { (fillFromEnv L (fillFromFile L w cfg).world (fillFromFile L w cfg).config).world with
              trace := (fillFromEnv L (fillFromFile L w cfg).world
                          (fillFromFile L w cfg).config).world.trace ++ [Event.validateStruct] },
          config := (fillFromEnv L (fillFromFile L w cfg).world (fillFromFile L w cfg).config).config,
          err := (L.validateStruct
                    (fillFromEnv L (fillFromFile L w cfg).world
                      (fillFromFile L w cfg).config).config).map Error.validation } := by
  unfold Fill
  simp only [hf, h]

theorem Fill_ok_stages (L : Libs File Cfg) (w : World) (cfg : Cfg)
    (h : (Fill L w cfg).err = none) :
    (fillFromFile L w cfg).err = none
      ∧ (fillFromEnv L (fillFromFile L w cfg).world (fillFromFile L w cfg).config).err = none := by
  cases hf : (fillFromFile L w cfg).err with
  | some e =>
    rw [Fill_of_file_error L w cfg e hf, hf] at h
    cases h
  | none =>
    refine ⟨rfl, ?_⟩
    cases he : (fillFromEnv L (fillFromFile L w cfg).world (fillFromFile L w cfg).config).err with
    | some e =>
      rw [Fill_of_env_error L w cfg e hf he, he] at h
      cases h
    | none => rfl

theorem fillFromFile_settings (L : Libs File Cfg) (w : World) (cfg : Cfg) :
    (fillFromFile L w cfg).world.settings = w.settings
      ∧ (fillFromFile L w cfg).world.environ = w.environ := by
  unfold fillFromFile
  split
  · exact ⟨rfl, rfl⟩
  · split <;> exact ⟨rfl, rfl⟩

theorem Fill_of_overlay_noop (L : Libs File Cfg) (w : World) (cfg : Cfg) (file : File)
    (hpath : w.settings.yamlConfigFilePath ≠ "")
    (hopen : L.osOpen w.settings.yamlConfigFilePath = .ok file)
    (hdecode : (L.yamlDecode file cfg).2 = none)
    (hnoenv : L.envconfigProcess w.settings.envPrefix
        (L.godotenvLoad (envFilenames w.settings) w.environ).1 (L.yamlDecode file cfg).1
          = ((L.yamlDecode file cfg).1, none))
    (hvalid : L.validateStruct (L.yamlDecode file cfg).1 = none) :
    (Fill L w cfg).err = none ∧ (Fill L w cfg).config = (L.yamlDecode file cfg).1 := by
  have hf := fillFromFile_open_ok L w cfg file hpath hopen
  have hferr : (fillFromFile L w cfg).err = none := by rw [hf, hdecode]; rfl
  have hfcfg : (fillFromFile L w cfg).config = (L.yamlDecode file cfg).1 := by rw [hf]
  have hs := fillFromFile_settings L w cfg
  have hproc : L.envconfigProcess (fillFromFile L w cfg).world.settings.envPrefix
      (L.godotenvLoad (envFilenames (fillFromFile L w cfg).world.settings)
        (fillFromFile L w cfg).world.environ).1 (fillFromFile L w cfg).config
        = ((L.yamlDecode file cfg).1, none) := by
    rw [hs.1, hs.2, hfcfg, hnoenv]
  have heerr : (fillFromEnv L (fillFromFile L w cfg).world (fillFromFile L w cfg).config).err
      = none := by
    show (L.envconfigProcess (fillFromFile L w cfg).world.settings.envPrefix
      (L.godotenvLoad (envFilenames (fillFromFile L w cfg).world.settings)
        (fillFromFile L w cfg).world.environ).1 (fillFromFile L w cfg).config).2.map
          Error.process = none
    rw [hproc]
    rfl
  have hecfg : (fillFromEnv L (fillFromFile L w cfg).world (fillFromFile L w cfg).config).config
      = (L.yamlDecode file cfg).1 := by
    show (L.envconfigProcess (fillFromFile L w cfg).world.settings.envPrefix
      (L.godotenvLoad (envFilenames (fillFromFile L w cfg).world.settings)
        (fillFromFile L w cfg).world.environ).1 (fillFromFile L w cfg).config).1 = _
    rw [hproc]
  rw [Fill_of_stages_ok L w cfg hferr heerr]
  refine ⟨?_, hecfg⟩
  show (L.validateStruct _).map Error.validation = none
  rw [hecfg, hvalid]
  rfl


end FillTheorems

/-! ## Registration and parsing of flags -/

theorem lookupFlag_append_isSome (name : String) (fs gs : List Flag) :
    (lookupFlag name (fs ++ gs)).isSome
      = ((lookupFlag name fs).isSome || (lookupFlag name gs).isSome) := by
  induction fs with
  | nil => simp [lookupFlag]
  | cons f fs ih =>
    simp only [List.cons_append, lookupFlag]
    split
    · simp
    · exact ih

theorem lookupFlag_setFlag_isSome (name target value : String) (fs : List Flag) :
    (lookupFlag name (setFlag target value fs)).isSome = (lookupFlag name fs).isSome := by
  induction fs with
  | nil => rfl
  | cons f fs ih =>
    simp only [setFlag]
    by_cases ht : f.name = target
    · rw [if_pos ht]
      simp only [lookupFlag]
      by_cases hn : f.name = name
      · rw [if_pos hn, if_pos hn]
        rfl
      · rw [if_neg hn, if_neg hn]
    · rw [if_neg ht]
      simp only [lookupFlag]
      split
      · rfl
      · exact ih

theorem parseLoop_isSome (name : String) (args : List String) :
    ∀ (formal : List Flag) (actual : List String) (pending : Option String)
      (r : List Flag × List String × List String),
      parseLoop formal actual pending args = .ok r →
      (lookupFlag name r.1).isSome = (lookupFlag name formal).isSome := by
  induction args with
  | nil =>
    intro formal actual pending r h
    cases pending with
    | some p => simp [parseLoop] at h
    | none =>
      simp only [parseLoop, Except.ok.injEq] at h
      rw [← h]
  | cons s rest ih =>
    intro formal actual pending r h
    cases pending with
    | some p =>
      simp only [parseLoop] at h
      rw [ih _ _ _ _ h, lookupFlag_setFlag_isSome]
    | none =>
      simp only [parseLoop] at h
      split at h
      · simp only [Except.ok.injEq] at h
        rw [← h]
      · simp only [Except.ok.injEq] at h
        rw [← h]
      · cases h
      · split at h
        · split at h <;> cases h
        · split at h
          · rw [ih _ _ _ _ h, lookupFlag_setFlag_isSome]
          · exact ih _ _ _ _ h

theorem flagString_ok (f g : FlagSet) (name value usageText : String)
    (h : flagString f name value usageText = .ok g) :
    g.formal = f.formal ++ [{ name := name, usage := usageText, value := value,
                              defValue := value }] := by
  unfold flagString at h
  split at h
  · cases h
  · split at h
    · cases h
    · split at h
      · cases h
      · simp only [Except.ok.injEq] at h
        rw [← h]

theorem flagString_registers (f g : FlagSet) (name value usageText : String)
    (h : flagString f name value usageText = .ok g) :
    (lookupFlag name g.formal).isSome = true := by
  rw [flagString_ok f g name value usageText h, lookupFlag_append_isSome]
  simp [lookupFlag]

theorem flagString_keeps (f g : FlagSet) (name value usageText other : String)
    (h : flagString f name value usageText = .ok g)
    (ho : (lookupFlag other f.formal).isSome = true) :
    (lookupFlag other g.formal).isSome = true := by
  rw [flagString_ok f g name value usageText h, lookupFlag_append_isSome, ho]
  rfl

theorem flagParse_isSome (f g : FlagSet) (arguments : List String) (name : String)
    (h : flagParse f arguments = .ok g) :
    (lookupFlag name g.formal).isSome = (lookupFlag name f.formal).isSome := by
  unfold flagParse at h
  split at h
  · cases h
  · rename_i formal actual args hp
    simp only [Except.ok.injEq] at h
    rw [← h]
    exact parseLoop_isSome name arguments f.formal f.actual none _ hp

theorem InitOnce_ok_registered (w w1 : World) (h : InitOnce w = .ok w1) :
    (lookupFlag "yaml-config" w1.commandLine.formal).isSome = true := by
  unfold InitOnce at h
  split at h
  · cases h
  · rename_i f1 h1
    split at h
    · cases h
    · rename_i f2 h2
      split at h
      · cases h
      · rename_i f3 h3
        split at h
        · cases h
        · rename_i f4 h4
          simp only [Outcome.ok.injEq] at h
          rw [← h]
          show (lookupFlag "yaml-config" f4.formal).isSome = true
          rw [flagParse_isSome f3 f4 _ "yaml-config" h4]
          exact flagString_keeps f2 f3 _ _ _ _ h3
            (flagString_keeps f1 f2 _ _ _ _ h2 (flagString_registers _ f1 _ _ _ h1))

theorem InitOnce_ok_settings (w w1 : World) (h : InitOnce w = .ok w1) :
    w1.settings = { yamlConfigFilePath := flagValue w1.commandLine "yaml-config",
                    envConfigFilePath := flagValue w1.commandLine "env-config",
                    envPrefix := flagValue w1.commandLine "env-prefix" } := by
  unfold InitOnce at h
  split at h
  · cases h
  · split at h
    · cases h
    · split at h
      · cases h
      · split at h
        · cases h
        · simp only [Outcome.ok.injEq] at h
          rw [← h]

theorem InitOnce_again (w w1 : World) (h : InitOnce w = .ok w1) :
    InitOnce w1 = .panicked (Panic.flagRedefined w1.commandLine.name "yaml-config") w1 := by
  have hreg := InitOnce_ok_registered w w1 h
  have hs : flagString w1.commandLine "yaml-config" "" "yaml config file path"
      = .error (Panic.flagRedefined w1.commandLine.name "yaml-config") := by
    unfold flagString
    rw [if_neg (by decide), if_neg (by decide), if_pos hreg]
  unfold InitOnce
  rw [hs]

/-! ## The claims about `Fill` -/

section Claims

variable {File Cfg : Type}

/-- C1. Precedence of the environment over the YAML file.  Take a field
(any projection of the configuration object) that the YAML decoder sets to
`vy` and the environment overlay, run with the resolved prefix on the
environment left by the env-file load, sets to `ve`.  If `Fill` succeeds,
the file stage leaves `vy` in the field and the final object holds `ve`
there; when the two values differ the final value is not the YAML one. -/
theorem Fill_env_overrides_yaml {β : Type} (L : Libs File Cfg) (w : World) (cfg : Cfg)
    (file : File) (field : Cfg → β) (vy ve : β)
    (hpath : w.settings.yamlConfigFilePath ≠ "")
    (hopen : L.osOpen w.settings.yamlConfigFilePath = .ok file)
    (hyaml : ∀ c, field (L.yamlDecode file c).1 = vy)
    (henv : ∀ c, field (L.envconfigProcess w.settings.envPrefix
              (L.godotenvLoad (envFilenames w.settings) w.environ).1 c).1 = ve)
    (hok : (Fill L w cfg).err = none) :
    field (fillFromFile L w cfg).config = vy
      ∧ field (Fill L w cfg).config = ve
      ∧ (ve ≠ vy → field (Fill L w cfg).config ≠ vy) := by
  have hstages := Fill_ok_stages L w cfg hok
  have hfile : field (fillFromFile L w cfg).config = vy := by
    rw [fillFromFile_open_ok L w cfg file hpath hopen]
    exact hyaml cfg
  have hfinal : field (Fill L w cfg).config = ve := by
    rw [Fill_of_stages_ok L w cfg hstages.1 hstages.2]
    have hs := fillFromFile_settings L w cfg
    show field (L.envconfigProcess (fillFromFile L w cfg).world.settings.envPrefix
      (L.godotenvLoad (envFilenames (fillFromFile L w cfg).world.settings)
        (fillFromFile L w cfg).world.environ).1 (fillFromFile L w cfg).config).1 = ve
    rw [hs.1, hs.2]
    exact henv _
  exact ⟨hfile, hfinal, fun hne => by rw [hfinal]; exact hne⟩

/-- C1, evaluated on the example of the specification: the YAML file gives
host `localhost`, port 8080 and debug false, the environment holds
`SERVER_PORT=9090`, the prefix is empty; `Fill` succeeds with host
`localhost`, port 9090 and debug false. -/
theorem Fill_env_overrides_yaml_witness :
    Fill (exampleLibs [("app.yaml", exampleYaml)] [] noRules)
        (worldWith ⟨"app.yaml", "", ""⟩ [("SERVER_PORT", "9090")]) AppConfig.zero
      = { world := (Fill (exampleLibs [("app.yaml", exampleYaml)] [] noRules)
            (worldWith ⟨"app.yaml", "", ""⟩ [("SERVER_PORT", "9090")]) AppConfig.zero).world,
          config := { Server := { Host := "localhost", Port := 9090 }, Debug := false },
          err := none }
      ∧ (fillFromFile (exampleLibs [("app.yaml", exampleYaml)] [] noRules)
          (worldWith ⟨"app.yaml", "", ""⟩ [("SERVER_PORT", "9090")]) AppConfig.zero).config.Server.Port
          = 8080
      ∧ (Fill (exampleLibs [("app.yaml", exampleYaml)] [] noRules)
          (worldWith ⟨"app.yaml", "", ""⟩ [("SERVER_PORT", "9090")]) AppConfig.zero).config.Server.Port
          = 9090
      ∧ ((9090 : Int) ≠ 8080 →
          (Fill (exampleLibs [("app.yaml", exampleYaml)] [] noRules)
            (worldWith ⟨"app.yaml", "", ""⟩ [("SERVER_PORT", "9090")]) AppConfig.zero).config.Server.Port
            ≠ 8080) :=
  ⟨by rfl,
   Fill_env_overrides_yaml (exampleLibs [("app.yaml", exampleYaml)] [] noRules)
     (worldWith ⟨"app.yaml", "", ""⟩ [("SERVER_PORT", "9090")]) AppConfig.zero
     exampleYaml (fun c => c.Server.Port) 8080 9090
     (by decide) (by rfl) (fun _ => by rfl) (fun _ => by rfl) (by rfl)⟩

/-- C2. When the file stage and the environment stage both succeed, `Fill`
returns the verdict of the validator on the object the environment stage
left: the validation error if there is one, success otherwise, and that
object is the one the caller is left with.  So a successful `Fill` leaves an
object on which the validator reports nothing. -/
theorem Fill_returns_validator_verdict (L : Libs File Cfg) (w : World) (cfg : Cfg)
    (hfile : (fillFromFile L w cfg).err = none)
    (henv : (fillFromEnv L (fillFromFile L w cfg).world (fillFromFile L w cfg).config).err = none) :
    (Fill L w cfg).config
        = (fillFromEnv L (fillFromFile L w cfg).world (fillFromFile L w cfg).config).config
      ∧ (Fill L w cfg).err = (L.validateStruct (Fill L w cfg).config).map Error.validation
      ∧ (∀ m, L.validateStruct (Fill L w cfg).config = some m →
          (Fill L w cfg).err = some (Error.validation m))
      ∧ ((Fill L w cfg).err = none → L.validateStruct (Fill L w cfg).config = none) := by
  have h := Fill_of_stages_ok L w cfg hfile henv
  have hc : (Fill L w cfg).config
      = (fillFromEnv L (fillFromFile L w cfg).world (fillFromFile L w cfg).config).config := by
    rw [h]
  have he : (Fill L w cfg).err = (L.validateStruct (Fill L w cfg).config).map Error.validation := by
    rw [hc, h]
  refine ⟨hc, he, ?_, ?_⟩
  · intro m hm
    rw [he, hm]
    rfl
  · intro hnone
    rw [he] at hnone
    cases hv : L.validateStruct (Fill L w cfg).config with
    | none => rfl
    | some m =>
      rw [hv] at hnone
      cases hnone

/-- C2, evaluated: with a rule on the port, the YAML port 8080 overridden by
`SERVER_PORT=0` merges without error but violates the rule, and `Fill`
returns the validation error. -/
theorem Fill_returns_validator_verdict_witness :
    (Fill (exampleLibs [("app.yaml", exampleYaml)] [] portRule)
        (worldWith ⟨"app.yaml", "", ""⟩ [("SERVER_PORT", "0")]) AppConfig.zero).err
      = some (Error.validation
          "Key: 'AppConfig.Server.Port' Error:Field validation for 'Port' failed")
      ∧ (Fill (exampleLibs [("app.yaml", exampleYaml)] [] portRule)
          (worldWith ⟨"app.yaml", "", ""⟩ [("SERVER_PORT", "0")]) AppConfig.zero).config
        = { Server := { Host := "localhost", Port := 0 }, Debug := false } :=
  have h := Fill_returns_validator_verdict (exampleLibs [("app.yaml", exampleYaml)] [] portRule)
    (worldWith ⟨"app.yaml", "", ""⟩ [("SERVER_PORT", "0")]) AppConfig.zero (by rfl) (by rfl)
  ⟨h.2.2.1 _ (by rfl), h.1.trans (by rfl)⟩

/-- C3. `Fill` fails fast.  (a) When the YAML file cannot be opened, `Fill`
returns the error of `os.Open` and its only call is that open.  (b) When the
file opens and decoding fails, `Fill` returns the decoder's error after the
open, the decode and the close of the file.  In both cases the environment is
left as it was and neither the env-file load, the overlay nor the validator is
called.  (c) When the file stage succeeds and the overlay fails, `Fill` returns
the overlay's error, which is no validation error, and the validator is not
called: the calls end with the env-file load and the overlay. -/
theorem Fill_fail_fast (L : Libs File Cfg) (w : World) (cfg : Cfg) :
    (∀ e, w.settings.yamlConfigFilePath ≠ "" →
        L.osOpen w.settings.yamlConfigFilePath = .error e →
        Fill L w cfg
          = { world := { w with trace := w.trace ++ [Event.osOpen w.settings.yamlConfigFilePath] },
              config := cfg, err := some (Error.io e) })
      ∧ (∀ file e, w.settings.yamlConfigFilePath ≠ "" →
        L.osOpen w.settings.yamlConfigFilePath = .ok file →
        (L.yamlDecode file cfg).2 = some e →
        Fill L w cfg
          = { world := { w with trace := w.trace ++
                          [Event.osOpen w.settings.yamlConfigFilePath,
                           Event.yamlDecode w.settings.yamlConfigFilePath,
                           Event.fileClose w.settings.yamlConfigFilePath] },
              config := (L.yamlDecode file cfg).1, err := some (Error.decode e) })
      ∧ (∀ e, (fillFromFile L w cfg).err = none →
        (L.envconfigProcess w.settings.envPrefix
            (L.godotenvLoad (envFilenames w.settings) w.environ).1
            (fillFromFile L w cfg).config).2 = some e →
        (Fill L w cfg).err = some (Error.process e)
          ∧ (∀ m, (Fill L w cfg).err ≠ some (Error.validation m))
          ∧ (Fill L w cfg).world.trace
              = (fillFromFile L w cfg).world.trace ++
                  [Event.godotenvLoad (envFilenames w.settings),
                   Event.envconfigProcess w.settings.envPrefix]) := by
  refine ⟨?_, ?_, ?_⟩
  · intro e hp ho
    have hf := fillFromFile_open_error L w cfg e hp ho
    rw [Fill_of_file_error L w cfg (Error.io e) (by rw [hf]), hf]
  · intro file e hp ho hd
    have hf := fillFromFile_open_ok L w cfg file hp ho
    rw [Fill_of_file_error L w cfg (Error.decode e) (by rw [hf, hd]; rfl), hf, hd]
    rfl
  · intro e hfile hproc
    have hs := fillFromFile_settings L w cfg
    have henv : (fillFromEnv L (fillFromFile L w cfg).world (fillFromFile L w cfg).config).err
        = some (Error.process e) := by
      show (L.envconfigProcess (fillFromFile L w cfg).world.settings.envPrefix
        (L.godotenvLoad (envFilenames (fillFromFile L w cfg).world.settings)
          (fillFromFile L w cfg).world.environ).1 (fillFromFile L w cfg).config).2.map
            Error.process = some (Error.process e)
      rw [hs.1, hs.2, hproc]
      rfl
    have hF := Fill_of_env_error L w cfg (Error.process e) hfile henv
    refine ⟨by rw [hF, henv], ?_, ?_⟩
    · intro m hm
      rw [hF, henv] at hm
      cases hm
    · rw [hF]
      show (fillFromFile L w cfg).world.trace ++
          [Event.godotenvLoad (envFilenames (fillFromFile L w cfg).world.settings),
           Event.envconfigProcess (fillFromFile L w cfg).world.settings.envPrefix] = _
      rw [hs.1]

/-- C3, evaluated on three runs for `AppConfig`: a YAML path that names no
file, a YAML document that is a bare scalar, and an environment whose
`SERVER_PORT` is no number. -/
theorem Fill_fail_fast_witness :
    (Fill (exampleLibs [] [] noRules) (worldWith ⟨"missing.yaml", "", ""⟩ [])
        AppConfig.zero).err
      = some (Error.io "open missing.yaml: no such file or directory")
      ∧ (Fill (exampleLibs [] [] noRules) (worldWith ⟨"missing.yaml", "", ""⟩ [])
          AppConfig.zero).world.trace = [Event.osOpen "missing.yaml"]
      ∧ (Fill (exampleLibs [("bad.yaml", Yaml.scalar "x")] [] noRules)
          (worldWith ⟨"bad.yaml", "", ""⟩ []) AppConfig.zero).err
        = some (Error.decode "cannot unmarshal scalar into struct")
      ∧ (Fill (exampleLibs [("bad.yaml", Yaml.scalar "x")] [] noRules)
          (worldWith ⟨"bad.yaml", "", ""⟩ []) AppConfig.zero).world.trace
        = [Event.osOpen "bad.yaml", Event.yamlDecode "bad.yaml", Event.fileClose "bad.yaml"]
      ∧ (Fill (exampleLibs [("app.yaml", exampleYaml)] [] portRule)
          (worldWith ⟨"app.yaml", "", ""⟩ [("SERVER_PORT", "http")]) AppConfig.zero).err
        = some (Error.process "envconfig.Process: assigning SERVER_PORT to Port")
      ∧ (Fill (exampleLibs [("app.yaml", exampleYaml)] [] portRule)
          (worldWith ⟨"app.yaml", "", ""⟩ [("SERVER_PORT", "http")]) AppConfig.zero).world.trace
        = [Event.osOpen "app.yaml", Event.yamlDecode "app.yaml", Event.fileClose "app.yaml",
           Event.godotenvLoad [], Event.envconfigProcess ""] :=
  have h1 := (Fill_fail_fast (exampleLibs [] [] noRules)
    (worldWith ⟨"missing.yaml", "", ""⟩ []) AppConfig.zero).1
      "open missing.yaml: no such file or directory" (by decide) (by rfl)
  have h2 := (Fill_fail_fast (exampleLibs [("bad.yaml", Yaml.scalar "x")] [] noRules)
    (worldWith ⟨"bad.yaml", "", ""⟩ []) AppConfig.zero).2.1
      (Yaml.scalar "x") "cannot unmarshal scalar into struct" (by decide) (by rfl) (by rfl)
  have h3 := (Fill_fail_fast (exampleLibs [("app.yaml", exampleYaml)] [] portRule)
    (worldWith ⟨"app.yaml", "", ""⟩ [("SERVER_PORT", "http")]) AppConfig.zero).2.2
      "envconfig.Process: assigning SERVER_PORT to Port" (by rfl) (by rfl)
  ⟨by rw [h1], by rw [h1]; rfl, by rw [h2], by rw [h2]; rfl, h3.1, h3.2.2.trans (by rfl)⟩

/-- C4. A failure to load the env files is swallowed.  The error returned
by `fillFromEnv` is the error of the overlay `envconfig.Process(envPrefix,
config)`, run on the environment the load attempt left, and the overlay is
always called, right after the load.  Replacing the loader by one that has the
same effect on the environment but reports other errors (or none) changes
neither the result of `fillFromEnv` nor that of `Fill`. -/
theorem fillFromEnv_swallows_load_error (L : Libs File Cfg) (w : World) (cfg : Cfg) :
    (fillFromEnv L w cfg).err
        = (L.envconfigProcess w.settings.envPrefix
            (L.godotenvLoad (envFilenames w.settings) w.environ).1 cfg).2.map Error.process
      ∧ (fillFromEnv L w cfg).world.trace
        = w.trace ++ [Event.godotenvLoad (envFilenames w.settings),
                      Event.envconfigProcess w.settings.envPrefix]
      ∧ ∀ load : List String → Environ → Environ × Option String,
          (∀ names env, (load names env).1 = (L.godotenvLoad names env).1) →
          fillFromEnv { L with godotenvLoad := load } w cfg = fillFromEnv L w cfg
            ∧ Fill { L with godotenvLoad := load } w cfg = Fill L w cfg := by
  refine ⟨rfl, rfl, ?_⟩
  intro load hload
  have henv : ∀ (w0 : World) (c0 : Cfg),
      fillFromEnv { L with godotenvLoad := load } w0 c0 = fillFromEnv L w0 c0 := by
    intro w0 c0
    simp only [fillFromEnv, hload]
  have hfile : ∀ (w0 : World) (c0 : Cfg),
      fillFromFile { L with godotenvLoad := load } w0 c0 = fillFromFile L w0 c0 := by
    intro w0 c0
    rfl
  refine ⟨henv w cfg, ?_⟩
  simp only [Fill, henv, hfile]

/-- C4, evaluated: with the env path naming a file that does not exist the
load fails, and `fillFromEnv` and `Fill` succeed all the same, exactly as with
a loader that reports no error. -/
theorem fillFromEnv_swallows_load_error_witness :
    ((exampleLibs [] [] noRules).godotenvLoad [".missing"] []).2
        = some "open .missing: no such file or directory"
      ∧ (fillFromEnv (exampleLibs [] [] noRules) (worldWith ⟨"", ".missing", ""⟩ [])
          AppConfig.zero).err = none
      ∧ (Fill (exampleLibs [] [] noRules) (worldWith ⟨"", ".missing", ""⟩ [])
          AppConfig.zero).err = none
      ∧ Fill { exampleLibs [] [] noRules with
                godotenvLoad := fun names env =>
                  (((exampleLibs [] [] noRules).godotenvLoad names env).1, none) }
            (worldWith ⟨"", ".missing", ""⟩ []) AppConfig.zero
          = Fill (exampleLibs [] [] noRules) (worldWith ⟨"", ".missing", ""⟩ []) AppConfig.zero :=
  ⟨by rfl, by rfl, by rfl,
   ((fillFromEnv_swallows_load_error (exampleLibs [] [] noRules)
      (worldWith ⟨"", ".missing", ""⟩ []) AppConfig.zero).2.2
        (fun names env => (((exampleLibs [] [] noRules).godotenvLoad names env).1, none))
        (fun _ _ => rfl)).2⟩

/-- C5. With an empty YAML path the file stage is a no-op on the object:
`fillFromFile` returns no error, calls neither `os.Open` nor the decoder (the
list of calls is unchanged), and returns the object it was given; the settings
and the environment are untouched as well. -/
theorem fillFromFile_empty_path_noop (L : Libs File Cfg) (w : World) (cfg : Cfg)
    (h : w.settings.yamlConfigFilePath = "") :
    (fillFromFile L w cfg).err = none
      ∧ (fillFromFile L w cfg).config = cfg
      ∧ (fillFromFile L w cfg).world.trace = w.trace
      ∧ (fillFromFile L w cfg).world.settings = w.settings
      ∧ (fillFromFile L w cfg).world.environ = w.environ := by
  rw [fillFromFile_empty L w cfg h]
  exact ⟨rfl, rfl, rfl, rfl, rfl⟩

/-- C5, evaluated: an object with values already in it goes through the file
stage unchanged when no YAML path is set, even if YAML files exist. -/
theorem fillFromFile_empty_path_noop_witness :
    (fillFromFile (exampleLibs [("app.yaml", exampleYaml)] [] noRules)
        (worldWith ⟨"", "", ""⟩ []) ⟨⟨"example.org", 443⟩, true⟩).err = none
      ∧ (fillFromFile (exampleLibs [("app.yaml", exampleYaml)] [] noRules)
          (worldWith ⟨"", "", ""⟩ []) ⟨⟨"example.org", 443⟩, true⟩).config
        = ⟨⟨"example.org", 443⟩, true⟩
      ∧ (fillFromFile (exampleLibs [("app.yaml", exampleYaml)] [] noRules)
          (worldWith ⟨"", "", ""⟩ []) ⟨⟨"example.org", 443⟩, true⟩).world.trace = [] :=
  have h := fillFromFile_empty_path_noop (exampleLibs [("app.yaml", exampleYaml)] [] noRules)
    (worldWith ⟨"", "", ""⟩ []) ⟨⟨"example.org", 443⟩, true⟩ (by rfl)
  ⟨h.1, h.2.1, h.2.2.1⟩

/-- C6, as amended.  YAML alone.  Let the overlay be the loop of
`envconfig.Process` over the gathered fields of the configuration type.  When
the YAML file opens and decodes without error, no variable of the environment
left by the env-file load is found under the key or the alternative key of any
field, no field carries a `default` tag or a true `required` tag, and the
validator accepts the decoded object, `Fill` succeeds and the object it leaves
is the YAML-decoded one. -/
theorem Fill_yaml_only (L : Libs File Cfg) (gatherInfo : String → List (VarInfo Cfg))
    (w : World) (cfg : Cfg) (file : File)
    (hpath : w.settings.yamlConfigFilePath ≠ "")
    (hopen : L.osOpen w.settings.yamlConfigFilePath = .ok file)
    (hdecode : (L.yamlDecode file cfg).2 = none)
    (hmatch : ∀ info ∈ gatherInfo w.settings.envPrefix,
        lookupEnv info.key (L.godotenvLoad (envFilenames w.settings) w.environ).1 = none
          ∧ (info.alt ≠ "" →
              lookupEnv info.alt (L.godotenvLoad (envFilenames w.settings) w.environ).1 = none))
    (htags : ∀ info ∈ gatherInfo w.settings.envPrefix,
        info.defaultTag = "" ∧ info.required = false)
    (hvalid : L.validateStruct (L.yamlDecode file cfg).1 = none) :
    (Fill { L with envconfigProcess := envconfigProcess gatherInfo } w cfg).err = none
      ∧ (Fill { L with envconfigProcess := envconfigProcess gatherInfo } w cfg).config
          = (L.yamlDecode file cfg).1 :=
  Fill_of_overlay_noop { L with envconfigProcess := envconfigProcess gatherInfo } w cfg file
    hpath hopen hdecode
    (processInfos_no_match (gatherInfo w.settings.envPrefix) _ _ hmatch htags) hvalid

/-- C6 as amended, evaluated: the example YAML for the untagged `AppConfig`,
with the ambient variable `HOME` and the variable `TZ` loaded from `.env`,
neither of which names a field; `Fill` succeeds with the decoded values. -/
theorem Fill_yaml_only_witness :
    (Fill (appLibs [("app.yaml", exampleYaml)] [(".env", [("TZ", "UTC")])] portRule)
        (worldWith ⟨"app.yaml", "", ""⟩ [("HOME", "/root")]) AppConfig.zero).err = none
      ∧ (Fill (appLibs [("app.yaml", exampleYaml)] [(".env", [("TZ", "UTC")])] portRule)
          (worldWith ⟨"app.yaml", "", ""⟩ [("HOME", "/root")]) AppConfig.zero).config
        = { Server := { Host := "localhost", Port := 8080 }, Debug := false }
      ∧ (Fill (appLibs [("app.yaml", exampleYaml)] [(".env", [("TZ", "UTC")])] portRule)
          (worldWith ⟨"app.yaml", "", ""⟩ [("HOME", "/root")]) AppConfig.zero).world.environ
        = [("HOME", "/root"), ("TZ", "UTC")] :=
  have h := Fill_yaml_only
    (appLibs [("app.yaml", exampleYaml)] [(".env", [("TZ", "UTC")])] portRule) appConfigInfos
    (worldWith ⟨"app.yaml", "", ""⟩ [("HOME", "/root")]) AppConfig.zero exampleYaml
    (by decide) (by rfl) (by rfl)
    (fun info hinfo => by
      simp only [appConfigInfos, worldWith, freshWorld, List.mem_cons, List.mem_singleton,
        List.not_mem_nil, or_false] at hinfo
      rcases hinfo with h1 | h1 | h1 <;> subst h1 <;> exact ⟨by rfl, fun _ => by rfl⟩)
    (fun info hinfo => by
      simp only [appConfigInfos, List.mem_cons, List.mem_singleton,
        List.not_mem_nil, or_false] at hinfo
      rcases hinfo with h1 | h1 | h1 <;> subst h1 <;> exact ⟨rfl, rfl⟩)
    (by rfl)
  ⟨h.1, h.2.trans (by rfl), by rfl⟩

/-- C6 as stated fails for a configuration type with tagged fields.  Take
`HostConfig` with the YAML document `host: y`, an empty environment and no
validation rule: the file opens and decodes to `Host = y`, no variable matches
the field and the validator accepts.  With the tag `default:"x"` on `Host`,
`Fill` succeeds but leaves `Host = x`, not the decoded object; with the tag
`required:"true"`, `Fill` fails with the overlay's error. -/
theorem Fill_yaml_only_counterexample :
    (hostLibs [("app.yaml", hostYaml)] [] "x" false).osOpen "app.yaml" = .ok hostYaml
      ∧ (hostLibs [("app.yaml", hostYaml)] [] "x" false).yamlDecode hostYaml ⟨""⟩
          = (⟨"y"⟩, none)
      ∧ (∀ info ∈ hostConfigInfos "x" false "",
          lookupEnv info.key [] = none ∧ lookupEnv info.alt [] = none)
      ∧ (hostLibs [("app.yaml", hostYaml)] [] "x" false).validateStruct ⟨"y"⟩ = none
      ∧ (Fill (hostLibs [("app.yaml", hostYaml)] [] "x" false)
          (worldWith ⟨"app.yaml", "", ""⟩ []) ⟨""⟩).world.environ = []
      ∧ (Fill (hostLibs [("app.yaml", hostYaml)] [] "x" false)
          (worldWith ⟨"app.yaml", "", ""⟩ []) ⟨""⟩).err = none
      ∧ (Fill (hostLibs [("app.yaml", hostYaml)] [] "x" false)
          (worldWith ⟨"app.yaml", "", ""⟩ []) ⟨""⟩).config = ⟨"x"⟩
      ∧ (Fill (hostLibs [("app.yaml", hostYaml)] [] "x" false)
          (worldWith ⟨"app.yaml", "", ""⟩ []) ⟨""⟩).config
          ≠ ((hostLibs [("app.yaml", hostYaml)] [] "x" false).yamlDecode hostYaml ⟨""⟩).1
      ∧ (Fill (hostLibs [("app.yaml", hostYaml)] [] "" true)
          (worldWith ⟨"app.yaml", "", ""⟩ []) ⟨""⟩).err
          = some (Error.process "required key HOST missing value") :=
  ⟨by rfl, by rfl, fun _ _ => ⟨rfl, rfl⟩, by rfl, by rfl, by rfl, by rfl, by decide, by rfl⟩

/-- C7, as amended.  Which env files are asked for and which are read, with
`godotenv.Load` spelled out as its loop over the files.  With a non-empty env
path the names handed to the one `godotenv.Load` call are the pieces of the
path between commas, in order: joining them with commas gives the path back,
and a path without a comma is the single name.  The files it tries to read are
a leading part of these names: all of them when every file loads, and the names
up to and including the first file that fails otherwise, the later ones not
being read.  With an empty env path no name is handed over and the one file
tried is the default `.env`.  In both cases the environment the loop leaves is
the environment of the process afterwards and the one the overlay runs on. -/
theorem fillFromEnv_filenames (L : Libs File Cfg)
    (loadFile : String → Environ → Except String Environ) (w : World) (cfg : Cfg) :
    (w.settings.envConfigFilePath ≠ "" →
        stringsJoin (stringsSplit w.settings.envConfigFilePath ',') ','
            = w.settings.envConfigFilePath
          ∧ (',' ∉ w.settings.envConfigFilePath.data →
              stringsSplit w.settings.envConfigFilePath ',' = [w.settings.envConfigFilePath])
          ∧ (fillFromEnv { L with godotenvLoad := godotenvLoad loadFile } w cfg).world.trace
              = w.trace ++ [Event.godotenvLoad (stringsSplit w.settings.envConfigFilePath ','),
                            Event.envconfigProcess w.settings.envPrefix]
          ∧ (fillFromEnv { L with godotenvLoad := godotenvLoad loadFile } w cfg).world.environ
              = (loadEach loadFile (stringsSplit w.settings.envConfigFilePath ',')
                  w.environ).environ
          ∧ (fillFromEnv { L with godotenvLoad := godotenvLoad loadFile } w cfg).config
              = (L.envconfigProcess w.settings.envPrefix
                  (loadEach loadFile (stringsSplit w.settings.envConfigFilePath ',')
                    w.environ).environ cfg).1
          ∧ (fillFromEnv { L with godotenvLoad := godotenvLoad loadFile } w cfg).err
              = (L.envconfigProcess w.settings.envPrefix
                  (loadEach loadFile (stringsSplit w.settings.envConfigFilePath ',')
                    w.environ).environ cfg).2.map Error.process
          ∧ (loadEach loadFile (stringsSplit w.settings.envConfigFilePath ',')
                w.environ).attempted <+: stringsSplit w.settings.envConfigFilePath ','
          ∧ ((loadEach loadFile (stringsSplit w.settings.envConfigFilePath ',')
                w.environ).err = none →
              (loadEach loadFile (stringsSplit w.settings.envConfigFilePath ',')
                w.environ).attempted = stringsSplit w.settings.envConfigFilePath ',')
          ∧ (∀ (pre : List String) (f : String) (post : List String) (e : String),
              stringsSplit w.settings.envConfigFilePath ',' = pre ++ f :: post →
              (loadEach loadFile pre w.environ).err = none →
              loadFile f (loadEach loadFile pre w.environ).environ = .error e →
              (loadEach loadFile (stringsSplit w.settings.envConfigFilePath ',')
                  w.environ).attempted = pre ++ [f]
                ∧ (fillFromEnv { L with godotenvLoad := godotenvLoad loadFile } w cfg).world.environ
                    = (loadEach loadFile pre w.environ).environ))
      ∧ (w.settings.envConfigFilePath = "" →
        (fillFromEnv { L with godotenvLoad := godotenvLoad loadFile } w cfg).world.trace
            = w.trace ++ [Event.godotenvLoad [], Event.envconfigProcess w.settings.envPrefix]
          ∧ (fillFromEnv { L with godotenvLoad := godotenvLoad loadFile } w cfg).world.environ
              = (loadEach loadFile [".env"] w.environ).environ
          ∧ (loadEach loadFile [".env"] w.environ).attempted = [".env"]
          ∧ (fillFromEnv { L with godotenvLoad := godotenvLoad loadFile } w cfg).config
              = (L.envconfigProcess w.settings.envPrefix
                  (loadEach loadFile [".env"] w.environ).environ cfg).1
          ∧ (fillFromEnv { L with godotenvLoad := godotenvLoad loadFile } w cfg).err
              = (L.envconfigProcess w.settings.envPrefix
                  (loadEach loadFile [".env"] w.environ).environ cfg).2.map Error.process) := by
  constructor
  · intro h
    have hnames : envFilenames w.settings = stringsSplit w.settings.envConfigFilePath ',' := by
      unfold envFilenames
      rw [if_pos h]
    have hdef : filenamesOrDefault (stringsSplit w.settings.envConfigFilePath ',')
        = stringsSplit w.settings.envConfigFilePath ',' := by
      unfold filenamesOrDefault
      rw [if_neg]
      unfold stringsSplit
      intro hnil
      exact splitChars_ne_nil _ _ (List.map_eq_nil_iff.mp hnil)
    have henv : (fillFromEnv { L with godotenvLoad := godotenvLoad loadFile } w cfg).world.environ
        = (loadEach loadFile (stringsSplit w.settings.envConfigFilePath ',') w.environ).environ := by
      show (godotenvLoad loadFile (envFilenames w.settings) w.environ).1 = _
      rw [hnames]
      unfold godotenvLoad
      rw [hdef]
    refine ⟨stringsJoin_stringsSplit _ _, stringsSplit_of_not_mem _ _, ?_, henv, ?_, ?_,
      loadEach_attempted_prefix _ _ _, loadEach_attempted_of_ok _ _ _, ?_⟩
    · show w.trace ++ [Event.godotenvLoad (envFilenames w.settings), _] = _
      rw [hnames]
    · show (L.envconfigProcess w.settings.envPrefix
        (godotenvLoad loadFile (envFilenames w.settings) w.environ).1 cfg).1 = _
      rw [hnames]
      unfold godotenvLoad
      rw [hdef]
    · show (L.envconfigProcess w.settings.envPrefix
        (godotenvLoad loadFile (envFilenames w.settings) w.environ).1 cfg).2.map Error.process = _
      rw [hnames]
      unfold godotenvLoad
      rw [hdef]
    · intro pre f post e hsplit hok hfail
      have hstop := loadEach_stops loadFile pre f post e w.environ hok hfail
      rw [henv, hsplit, hstop]
      exact ⟨rfl, rfl⟩
  · intro h
    have hnames : envFilenames w.settings = [] := by
      unfold envFilenames
      rw [if_neg (not_not.mpr h)]
    have hload : godotenvLoad loadFile (envFilenames w.settings) w.environ
        = ((loadEach loadFile [".env"] w.environ).environ,
           (loadEach loadFile [".env"] w.environ).err) := by
      rw [hnames]
      rfl
    refine ⟨?_, ?_, ?_, ?_, ?_⟩
    · show w.trace ++ [Event.godotenvLoad (envFilenames w.settings), _] = _
      rw [hnames]
    · show (godotenvLoad loadFile (envFilenames w.settings) w.environ).1 = _
      rw [hload]
    · unfold loadEach
      split
      · rfl
      · rfl
    · show (L.envconfigProcess w.settings.envPrefix
        (godotenvLoad loadFile (envFilenames w.settings) w.environ).1 cfg).1 = _
      rw [hload]
    · show (L.envconfigProcess w.settings.envPrefix
        (godotenvLoad loadFile (envFilenames w.settings) w.environ).1 cfg).2.map Error.process = _
      rw [hload]

/-- C7 as amended, evaluated.  With the files `a.env` and `conf/b.env` there,
the env path `a.env,conf/b.env` reads both, in order, and the overlay under the
prefix `APP` sees both; with the empty name between them in the path the loop
stops at it, so only `a.env` is in the environment; an empty env path tries
`.env` alone. -/
theorem fillFromEnv_filenames_witness :
    (loadEach (dotenvFile [("a.env", [("APP_SERVER_HOST", "fromA")]),
                           ("conf/b.env", [("APP_SERVER_PORT", "7000")])])
        (stringsSplit "a.env,conf/b.env" ',') []).attempted = ["a.env", "conf/b.env"]
      ∧ (fillFromEnv (appLibs [] [("a.env", [("APP_SERVER_HOST", "fromA")]),
                                  ("conf/b.env", [("APP_SERVER_PORT", "7000")])] noRules)
          (worldWith ⟨"", "a.env,conf/b.env", "APP"⟩ []) AppConfig.zero).world.environ
        = [("APP_SERVER_HOST", "fromA"), ("APP_SERVER_PORT", "7000")]
      ∧ (fillFromEnv (appLibs [] [("a.env", [("APP_SERVER_HOST", "fromA")]),
                                  ("conf/b.env", [("APP_SERVER_PORT", "7000")])] noRules)
          (worldWith ⟨"", "a.env,conf/b.env", "APP"⟩ []) AppConfig.zero).config
        = { Server := { Host := "fromA", Port := 7000 }, Debug := false }
      ∧ (loadEach (dotenvFile [("a.env", [("APP_SERVER_HOST", "fromA")]),
                               ("conf/b.env", [("APP_SERVER_PORT", "7000")])])
          (stringsSplit "a.env,,conf/b.env" ',') []).attempted = ["a.env", ""]
      ∧ (fillFromEnv (appLibs [] [("a.env", [("APP_SERVER_HOST", "fromA")]),
                                  ("conf/b.env", [("APP_SERVER_PORT", "7000")])] noRules)
          (worldWith ⟨"", "a.env,,conf/b.env", "APP"⟩ []) AppConfig.zero).world.environ
        = [("APP_SERVER_HOST", "fromA")]
      ∧ (loadEach (dotenvFile [("a.env", [("APP_SERVER_HOST", "fromA")]),
                               ("conf/b.env", [("APP_SERVER_PORT", "7000")])])
          [".env"] []).attempted = [".env"] :=
  have h1 := (fillFromEnv_filenames
    (appLibs [] [("a.env", [("APP_SERVER_HOST", "fromA")]),
                 ("conf/b.env", [("APP_SERVER_PORT", "7000")])] noRules)
    (dotenvFile [("a.env", [("APP_SERVER_HOST", "fromA")]),
                 ("conf/b.env", [("APP_SERVER_PORT", "7000")])])
    (worldWith ⟨"", "a.env,conf/b.env", "APP"⟩ []) AppConfig.zero).1 (by decide)
  have h2 := ((fillFromEnv_filenames
    (appLibs [] [("a.env", [("APP_SERVER_HOST", "fromA")]),
                 ("conf/b.env", [("APP_SERVER_PORT", "7000")])] noRules)
    (dotenvFile [("a.env", [("APP_SERVER_HOST", "fromA")]),
                 ("conf/b.env", [("APP_SERVER_PORT", "7000")])])
    (worldWith ⟨"", "a.env,,conf/b.env", "APP"⟩ []) AppConfig.zero).1 (by decide)).2.2.2.2.2.2.2.2
      ["a.env"] "" ["conf/b.env"] "open : no such file or directory" (by rfl) (by rfl) (by rfl)
  have h3 := (fillFromEnv_filenames
    (appLibs [] [("a.env", [("APP_SERVER_HOST", "fromA")]),
                 ("conf/b.env", [("APP_SERVER_PORT", "7000")])] noRules)
    (dotenvFile [("a.env", [("APP_SERVER_HOST", "fromA")]),
                 ("conf/b.env", [("APP_SERVER_PORT", "7000")])])
    (worldWith ⟨"", "", "APP"⟩ []) AppConfig.zero).2 (by rfl)
  ⟨h1.2.2.2.2.2.2.2.1 (by rfl), h1.2.2.2.1.trans (by rfl), h1.2.2.2.2.1.trans (by rfl),
   h2.1, h2.2.trans (by rfl), h3.2.2.1⟩

/-- C7 as stated fails.  With the env path `a.env,,conf/b.env` the pieces are
`a.env`, the empty name and `conf/b.env`.  Both `a.env` and `conf/b.env`
exist, the empty name cannot be opened: the env stage reads `a.env`, fails on
the empty name and never reads `conf/b.env`, whose variable is absent from the
environment although the file would load.  The files it tries are not exactly
the pieces of the path. -/
theorem fillFromEnv_filenames_counterexample :
    stringsSplit "a.env,,conf/b.env" ',' = ["a.env", "", "conf/b.env"]
      ∧ (loadEach (dotenvFile [("a.env", [("APP_SERVER_HOST", "fromA")]),
                               ("conf/b.env", [("APP_SERVER_PORT", "7000")])])
          (stringsSplit "a.env,,conf/b.env" ',') []).attempted = ["a.env", ""]
      ∧ (loadEach (dotenvFile [("a.env", [("APP_SERVER_HOST", "fromA")]),
                               ("conf/b.env", [("APP_SERVER_PORT", "7000")])])
          (stringsSplit "a.env,,conf/b.env" ',') []).attempted
          ≠ stringsSplit "a.env,,conf/b.env" ','
      ∧ dotenvFile [("a.env", [("APP_SERVER_HOST", "fromA")]),
                    ("conf/b.env", [("APP_SERVER_PORT", "7000")])] "conf/b.env"
            [("APP_SERVER_HOST", "fromA")]
          = .ok [("APP_SERVER_HOST", "fromA"), ("APP_SERVER_PORT", "7000")]
      ∧ (fillFromEnv (appLibs [] [("a.env", [("APP_SERVER_HOST", "fromA")]),
                                  ("conf/b.env", [("APP_SERVER_PORT", "7000")])] noRules)
          (worldWith ⟨"", "a.env,,conf/b.env", "APP"⟩ []) AppConfig.zero).world.environ
        = [("APP_SERVER_HOST", "fromA")]
      ∧ (fillFromEnv (appLibs [] [("a.env", [("APP_SERVER_HOST", "fromA")]),
                                  ("conf/b.env", [("APP_SERVER_PORT", "7000")])] noRules)
          (worldWith ⟨"", "a.env,,conf/b.env", "APP"⟩ []) AppConfig.zero).config
        = { Server := { Host := "fromA", Port := 0 }, Debug := false } :=
  ⟨by rfl, by rfl, by decide, by rfl, by rfl, by rfl⟩

/-- C9. `Fill` only reads the settings: whatever the outcome, the YAML path,
the env path and the env prefix after `Fill` are what they were before, and
the same holds for each of its two stages. -/
theorem Fill_preserves_settings (L : Libs File Cfg) (w : World) (cfg : Cfg) :
    (Fill L w cfg).world.settings = w.settings
      ∧ (fillFromFile L w cfg).world.settings = w.settings
      ∧ (fillFromEnv L w cfg).world.settings = w.settings := by
  have hs := (fillFromFile_settings L w cfg).1
  refine ⟨?_, hs, rfl⟩
  cases hf : (fillFromFile L w cfg).err with
  | some e => rw [Fill_of_file_error L w cfg e hf, hs]
  | none =>
    cases he : (fillFromEnv L (fillFromFile L w cfg).world (fillFromFile L w cfg).config).err with
    | some e =>
      rw [Fill_of_env_error L w cfg e hf he]
      exact hs
    | none =>
      rw [Fill_of_stages_ok L w cfg hf he]
      exact hs

/-- C10. The debug line.  With an empty YAML path the file stage writes the
line `fdvd` to standard output, and a whole `Fill` writes it exactly once,
whatever its outcome; with a YAML path set neither writes anything. -/
theorem fillFromFile_debug_line (L : Libs File Cfg) (w : World) (cfg : Cfg) :
    (w.settings.yamlConfigFilePath = "" →
        (fillFromFile L w cfg).world.stdout = w.stdout ++ ["fdvd\n"]
          ∧ (Fill L w cfg).world.stdout = w.stdout ++ ["fdvd\n"])
      ∧ (w.settings.yamlConfigFilePath ≠ "" →
        (fillFromFile L w cfg).world.stdout = w.stdout
          ∧ (Fill L w cfg).world.stdout = w.stdout) := by
  have hFill : (Fill L w cfg).world.stdout = (fillFromFile L w cfg).world.stdout := by
    cases hf : (fillFromFile L w cfg).err with
    | some e => rw [Fill_of_file_error L w cfg e hf]
    | none =>
      cases he : (fillFromEnv L (fillFromFile L w cfg).world (fillFromFile L w cfg).config).err with
      | some e =>
        rw [Fill_of_env_error L w cfg e hf he]
        rfl
      | none =>
        rw [Fill_of_stages_ok L w cfg hf he]
        rfl
  constructor
  · intro h
    have hf : (fillFromFile L w cfg).world.stdout = w.stdout ++ ["fdvd\n"] := by
      rw [fillFromFile_empty L w cfg h]
    exact ⟨hf, hFill.trans hf⟩
  · intro h
    have hf : (fillFromFile L w cfg).world.stdout = w.stdout := by
      unfold fillFromFile
      rw [if_neg h]
      split <;> rfl
    exact ⟨hf, hFill.trans hf⟩

/-- C10, evaluated: one `Fill` without a YAML path prints the line once, one
with a YAML path prints nothing. -/
theorem fillFromFile_debug_line_witness :
    (Fill (exampleLibs [] [] noRules) (worldWith ⟨"", "", ""⟩ []) AppConfig.zero).world.stdout
      = ["fdvd\n"]
      ∧ (Fill (exampleLibs [("app.yaml", exampleYaml)] [] noRules)
          (worldWith ⟨"app.yaml", "", ""⟩ []) AppConfig.zero).world.stdout = [] :=
  ⟨(((fillFromFile_debug_line (exampleLibs [] [] noRules) (worldWith ⟨"", "", ""⟩ [])
      AppConfig.zero).1 (by rfl)).2).trans (by rfl),
   (((fillFromFile_debug_line (exampleLibs [("app.yaml", exampleYaml)] [] noRules)
      (worldWith ⟨"app.yaml", "", ""⟩ []) AppConfig.zero).2 (by decide)).2).trans (by rfl)⟩

/-- C8, as amended.  `InitOnce` is for one call.  After a call that completes
normally the three settings hold the values of the three flags, and a second
call does not complete: registering `yaml-config` again panics in the `flag`
package before anything is parsed or written, so the process state, and with
it the three settings, stay what the single call left. -/
theorem InitOnce_second_call_panics (w w1 : World) (h : InitOnce w = .ok w1) :
    InitOnce w1 = .panicked (Panic.flagRedefined w1.commandLine.name "yaml-config") w1
      ∧ w1.settings = { yamlConfigFilePath := flagValue w1.commandLine "yaml-config",
                        envConfigFilePath := flagValue w1.commandLine "env-config",
                        envPrefix := flagValue w1.commandLine "env-prefix" } :=
  ⟨InitOnce_again w w1 h, InitOnce_ok_settings w w1 h⟩

/-- C8 as amended, evaluated: the command line
`app --yaml-config app.yaml -env-prefix=APP` on a fresh process. -/
theorem InitOnce_second_call_panics_witness :
    ∃ w1, InitOnce (freshWorld ["app", "--yaml-config", "app.yaml", "-env-prefix=APP"] []) = .ok w1
      ∧ w1.settings = ⟨"app.yaml", "", "APP"⟩
      ∧ InitOnce w1 = .panicked (Panic.flagRedefined "app" "yaml-config") w1 :=
  ⟨_, by rfl, by rfl,
   (InitOnce_second_call_panics
      (freshWorld ["app", "--yaml-config", "app.yaml", "-env-prefix=APP"] []) _ (by rfl)).1⟩

/-- C8 as stated fails: on a fresh process started as `app` without arguments
the first call of `InitOnce` completes and the second one panics with
`flag redefined: yaml-config`, so it is not true that a second call with the
same command line always completes normally. -/
theorem InitOnce_twice_counterexample :
    (∃ w1, InitOnce (freshWorld ["app"] []) = .ok w1
        ∧ InitOnce w1 = .panicked (Panic.flagRedefined "app" "yaml-config") w1)
      ∧ ¬ ∀ w w1 : World, InitOnce w = .ok w1 →
          ∃ w2, InitOnce w1 = .ok w2 ∧ w2.settings = w1.settings :=
  ⟨⟨_, by rfl, by rfl⟩, fun hall => by
    have h1 : ∃ w1, InitOnce (freshWorld ["app"] []) = .ok w1 := ⟨_, rfl⟩
    obtain ⟨w1, h1⟩ := h1
    obtain ⟨w2, h2, _⟩ := hall _ w1 h1
    rw [InitOnce_again _ w1 h1] at h2
    cases h2⟩

end Claims

end GoConfig
